import Mathlib

/-!
Verification development for the UnifiMessenger message bus
(`MessageManager`, src/unnamed/part_003) and the shared reconnection policy
(`BaseIntegration`, src/src/core/BaseIntegration.js).

Modelling conventions (shallow embedding of the JavaScript source):
* A JS primitive value that can appear as an id/key is `JVal` (string or
  number); `uuid n` stands for the string produced by the n-th call of
  `uuidv4()` in the run, modelled as a serially fresh token.
* `undefined` is `Option.none`; JS property access on `undefined` throws a
  TypeError, modelled by `Except.error (JSErr.typeError field)`.
* JS truthiness: `undefined`, `""` and `0` are falsy; every object (and
  every uuid string) is truthy.
* `moment().toISOString()` timestamps are ISO-8601 strings, which are
  totally ordered and always nonempty; they are modelled as `Nat`.
* JS `Map` is an insertion-ordered association list; `Map.set` overwrites
  in place, `Map.get`/`has` find the unique entry for a key.
-/

/-- A JS primitive value used for ids, keys and payload fields. -/
inductive JVal where
  | str : String → JVal
  | num : Int → JVal
  | uuid : Nat → JVal
deriving DecidableEq, Repr

/-- JS truthiness of a primitive value (`""` and `0` are falsy; a uuid
string is nonempty, hence truthy). -/
def JVal.truthy : JVal → Bool
  | .str s => s ≠ ""
  | .num n => n ≠ 0
  | .uuid _ => true

/-- A JS exception: either `new Error(msg)` or a TypeError raised by
reading a property of `undefined` (tagged with the missing object's
property name in the source). -/
inductive JSErr where
  | error : String → JSErr
  | typeError : String → JSErr
deriving DecidableEq, Repr

/-- `error.message` as read by `sendCrossChannelMessage`'s catch block. -/
def JSErr.message : JSErr → String
  | .error s => s
  | .typeError p => "TypeError: " ++ p

/-- JS `a || b` where `a` is a possibly-undefined string and the result is
allowed to be undefined (returns `b` when `a` is absent or falsy). -/
def jsOrOpt (a b : Option String) : Option String :=
  match a with
  | some s => if s ≠ "" then some s else b
  | none => b

/-- JS `a || b` for a possibly-undefined string with a defined default. -/
def jsOrStr (a : Option String) (b : String) : String :=
  match a with
  | some s => if s ≠ "" then s else b
  | none => b

/-- JS `a || b` for a possibly-undefined primitive with a defined default. -/
def jsOrVal (a : Option JVal) (b : JVal) : JVal :=
  match a with
  | some v => if v.truthy then v else b
  | none => b

/-- `hay` starts with `needle` (JS `String.prototype.startsWith`). -/
def startsWithL : List Char → List Char → Bool
  | _, [] => true
  | [], _ :: _ => false
  | h :: hs, n :: ns => h = n && startsWithL hs ns

/-- `hay` contains `needle` as a contiguous substring
(JS `String.prototype.includes`). -/
def containsL : List Char → List Char → Bool
  | [], needle => startsWithL [] needle
  | h :: hs, needle => startsWithL (h :: hs) needle || containsL hs needle

/-- JS `s.includes(sub)`. -/
def jsIncludes (s sub : String) : Bool := containsL s.toList sub.toList

/-- JS `s.startsWith(pre)`. -/
def jsStartsWith (s pre : String) : Bool := startsWithL s.toList pre.toList

/-- Insertion-ordered association list lookup (JS `Map.prototype.get`). -/
def mapGet? {α β : Type} [DecidableEq α] : List (α × β) → α → Option β
  | [], _ => none
  | (k, v) :: rest, key => if k = key then some v else mapGet? rest key

/-- JS `Map.prototype.has`. -/
def mapHas {α β : Type} [DecidableEq α] (m : List (α × β)) (k : α) : Bool :=
  (mapGet? m k).isSome

/-- JS `Map.prototype.set`: overwrites an existing entry in place, else
appends at the end (insertion order preserved). -/
def mapSet {α β : Type} [DecidableEq α] : List (α × β) → α → β → List (α × β)
  | [], k, v => [(k, v)]
  | (k0, v0) :: rest, k, v =>
      if k0 = k then (k0, v) :: rest else (k0, v0) :: mapSet rest k v

/-- A platform user object as the adapters deliver it (`from`, `author`):
all fields may be absent. `from` is a Lean keyword, hence `fromUser` for
the JS property named `from`. -/
structure RawUser where
  id : Option JVal := none
  username : Option String := none
  first_name : Option String := none
  last_name : Option String := none
  discriminator : Option String := none
deriving DecidableEq, Repr

/-- A chat/channel object of a native payload (`chat` for Telegram,
`channel` for Discord). -/
structure RawChat where
  id : Option JVal := none
  title : Option String := none
  first_name : Option String := none
  name : Option String := none
deriving DecidableEq, Repr

/-- A native platform payload as `normalizeMessage` receives it.  The JS
`channel` property carries a plain id for Slack and an object for Discord;
the embedding splits it by the type of its value into `channel`
(primitive) and `channelObj` (object).  The media fields
(`photo` … `sticker`) only matter through their truthiness in
`getMessageType`, so they are booleans. -/
structure RawMessage where
  text : Option String := none
  caption : Option String := none
  content : Option String := none
  fromUser : Option RawUser := none
  chat : Option RawChat := none
  message_id : Option JVal := none
  user : Option JVal := none
  username : Option String := none
  channel : Option JVal := none
  channelObj : Option RawChat := none
  channel_name : Option String := none
  ts : Option JVal := none
  subtype : Option String := none
  id : Option JVal := none
  author : Option RawUser := none
  channelId : Option JVal := none
  channelName : Option String := none
  type : Option JVal := none
  photo : Bool := false
  video : Bool := false
  audio : Bool := false
  voice : Bool := false
  document : Bool := false
  sticker : Bool := false
deriving DecidableEq, Repr

/-- The canonical author object built by `normalizeMessage`. -/
structure Author where
  id : Option JVal := none
  username : Option String := none
  firstName : Option String := none
  lastName : Option String := none
  discriminator : Option String := none
deriving DecidableEq, Repr

/-- Copy of a whole raw user object (default branch of
`normalizeMessage`: `rawMessage.author || {...}`). -/
def authorOfRaw (u : RawUser) : Author :=
  { id := u.id, username := u.username, firstName := u.first_name,
    lastName := u.last_name, discriminator := u.discriminator }

/-- The canonical message stored by the bus.  `id` is the serial of the
`uuidv4()` call that produced it; `timestamp` models the ISO string of
`moment()` at observation time.  `reactions`/`attachments` start empty and
are only touched by out-of-scope enrichment, so their element type is
irrelevant here. -/
structure Message where
  id : Nat
  platform : String
  timestamp : Nat
  processed : Bool
  reactions : List Unit
  attachments : List Unit
  content : String
  author : Author
  channelId : Option JVal
  channelName : Option String
  messageId : Option JVal
  type : Option JVal
deriving DecidableEq, Repr

/-- `MessageManager.getMessageType` (part_003 lines 111–119). -/
def getMessageType (m : RawMessage) : String :=
  if m.photo then "photo"
  else if m.video then "video"
  else if m.audio then "audio"
  else if m.voice then "voice"
  else if m.document then "document"
  else if m.sticker then "sticker"
  else "text"

/-- `MessageManager.normalizeMessage` (part_003 lines 42–109).  `fresh` is
the serial of the next unused `uuidv4()` value and `now` the current
clock; the call consumes at most the serials `fresh` and `fresh + 1`
(the default branch may generate a second uuid for `messageId`).  Nested
property access on an absent object throws, modelled as `Except.error`;
the error is tagged with the property that was undefined, following the
source's evaluation order (object literal fields top to bottom). -/
def normalizeMessage (platform : String) (raw : RawMessage) (fresh now : Nat) :
    Except JSErr Message :=
  if platform = "telegram" then
    match raw.fromUser, raw.chat with
    | none, _ => .error (.typeError "from")
    | some _, none => .error (.typeError "chat")
    | some frm, some chat =>
        .ok { id := fresh, platform := platform, timestamp := now,
              processed := false, reactions := [], attachments := [],
              content := jsOrStr raw.text (jsOrStr raw.caption "[Media]"),
              author := { id := frm.id, username := frm.username,
                          firstName := frm.first_name,
                          lastName := frm.last_name },
              channelId := chat.id,
              channelName := jsOrOpt chat.title chat.first_name,
              messageId := raw.message_id,
              type := some (.str (getMessageType raw)) }
  else if platform = "slack" then
    .ok { id := fresh, platform := platform, timestamp := now,
          processed := false, reactions := [], attachments := [],
          content := jsOrStr raw.text "[Media]",
          author := { id := raw.user, username := raw.username },
          channelId := raw.channel,
          channelName := raw.channel_name,
          messageId := raw.ts,
          type := some (jsOrVal (raw.subtype.map JVal.str) (.str "message")) }
  else if platform = "discord" then
    match raw.author, raw.channelObj with
    | none, _ => .error (.typeError "author")
    | some _, none => .error (.typeError "channel")
    | some a, some ch =>
        .ok { id := fresh, platform := platform, timestamp := now,
              processed := false, reactions := [], attachments := [],
              content := jsOrStr raw.content "[Media]",
              author := { id := a.id, username := a.username,
                          discriminator := a.discriminator },
              channelId := ch.id,
              channelName := ch.name,
              messageId := raw.id,
              type := raw.type }
  else
    .ok { id := fresh, platform := platform, timestamp := now,
          processed := false, reactions := [], attachments := [],
          content := jsOrStr raw.content (jsOrStr raw.text "[Unknown]"),
          author := (match raw.author with
                     | some a => authorOfRaw a
                     | none => { id := some (.str "unknown"),
                                 username := some "Unknown" }),
          channelId := some (jsOrVal raw.channelId (.str "unknown")),
          channelName := some (jsOrStr raw.channelName "Unknown"),
          messageId := some (jsOrVal raw.id (.uuid (fresh + 1))),
          type := some (.str "message") }

/-- The result object an adapter's `sendMessage` resolves with.  The bus
only reads its `messageId` field (part_003 line 160); everything else is
opaque, so the field stands for the whole object. -/
structure SendResult where
  messageId : Option JVal := none
deriving DecidableEq, Repr

/-- A registered platform integration as the `MessageManager` operations
modelled here use it: its `sendMessage(channelId, content)` capability,
which either resolves with a result or throws.  `options` is forwarded
opaquely by the bus and folded into the behaviour.  The channel id can be
`undefined` (`none`) because `getActiveChannels` can surface stored
messages whose `channelId` is undefined. -/
structure Adapter where
  send : Option JVal → String → Except JSErr SendResult

/-- An AI responder: `processMessage(canonicalMessage)` resolves with a
reply text or `null` (`none`). -/
def Agent : Type := Message → Option String

/-- The `MessageManager` state (part_003 lines 7–13): insertion-ordered
maps for messages (uuid serial → message), integrations (platform name →
adapter) and AI agents (binding key → responder), plus the model clock and
the serial of the next unused `uuidv4()` value. -/
structure Bus where
  messages : List (Nat × Message)
  integrations : List (String × Adapter)
  aiAgents : List (JVal × Agent)
  nextUuid : Nat
  now : Nat

/-- A freshly constructed `MessageManager`. -/
def initialBus : Bus :=
  { messages := [], integrations := [], aiAgents := [], nextUuid := 0, now := 0 }

/-- The stored messages in insertion order (`Array.from(this.messages.values())`). -/
def storedMessages (bus : Bus) : List Message := bus.messages.map Prod.snd

/-- `aiAgents.has(message.channelId)` — an undefined channel id is never a
key of the map. -/
def aiHas (bus : Bus) (channelId : Option JVal) : Bool :=
  match channelId with
  | some c => mapHas bus.aiAgents c
  | none => false

/-- `MessageManager.shouldProcessWithAI` (part_003 lines 121–125). -/
def shouldProcessWithAI (bus : Bus) (m : Message) : Bool :=
  jsIncludes m.content "@ai" || jsStartsWith m.content "/ai" ||
    aiHas bus m.channelId

/-- The responder `processWithAI` selects (part_003 line 129):
`this.aiAgents.get(message.channelId) || this.aiAgents.get('global')` —
an agent object is truthy, so `||` is a fallback on absence. -/
def lookupAIAgent (bus : Bus) (m : Message) : Option Agent :=
  match m.channelId with
  | some c =>
      match mapGet? bus.aiAgents c with
      | some a => some a
      | none => mapGet? bus.aiAgents (.str "global")
  | none => mapGet? bus.aiAgents (.str "global")

/-- `MessageManager.registerAIAgent` (part_003 lines 266–269). -/
def registerAIAgent (bus : Bus) (id : JVal) (agent : Agent) : Bus :=
  { bus with aiAgents := mapSet bus.aiAgents id agent }

/-- `MessageManager.registerIntegration` (part_003 lines 15–26): stores
the adapter under the platform name.  The event subscriptions it installs
are modelled by the `incoming` operations of a run (see `BusOp`). -/
def registerIntegration (bus : Bus) (platform : String) (a : Adapter) : Bus :=
  { bus with integrations := mapSet bus.integrations platform a }

/-- The synthetic telegram-shaped payload `sendMessage` builds for its own
outbound message (part_003 lines 156–161). -/
def syntheticRaw (channelId : Option JVal) (content : String)
    (mid : JVal) : RawMessage :=
  { text := some content,
    fromUser := some { id := some (.str "bot"),
                       username := some "UnifiMessenger" },
    chat := some { id := channelId },
    message_id := some mid }

/-- `MessageManager.sendMessage` (part_003 lines 146–173).  Returns the
updated bus, the call's outcome (the adapter's result, or the propagated
error), and the list of `message_sent` events emitted.  On any throw —
missing integration, adapter rejection, or a TypeError raised while
normalizing the synthetic payload — the error propagates and the message
store is untouched.  The call consumes at most the uuid serials
`nextUuid` (for `result.messageId || uuidv4()`) through `nextUuid + 2`
(normalization), so the counter advances by 3 on success. -/
def sendMessage (bus : Bus) (platform : String) (channelId : Option JVal)
    (content : String) : Bus × Except JSErr SendResult × List Message :=
  match mapGet? bus.integrations platform with
  | none =>
      (bus, .error (.error ("No integration found for platform: " ++ platform)), [])
  | some integ =>
      match integ.send channelId content with
      | .error e => (bus, .error e, [])
      | .ok result =>
          let mid := jsOrVal result.messageId (.uuid bus.nextUuid)
          match normalizeMessage platform (syntheticRaw channelId content mid)
              (bus.nextUuid + 1) bus.now with
          | .error e => (bus, .error e, [])
          | .ok msg =>
              ({ bus with messages := mapSet bus.messages msg.id msg,
                          nextUuid := bus.nextUuid + 3 },
               .ok result, [msg])

/-- `MessageManager.handleIncomingMessage` (part_003 lines 28–40):
normalize, store, emit `message`; the fire-and-forget AI dispatch it may
trigger performs its own `sendMessage` later, which a run models as a
separate operation.  A throw inside `normalizeMessage` propagates to the
adapter's emitter before anything is stored.  Returns the updated bus and
the `message` events emitted. -/
def handleIncomingMessage (bus : Bus) (platform : String) (raw : RawMessage) :
    Bus × List Message :=
  match normalizeMessage platform raw bus.nextUuid bus.now with
  | .error _ => (bus, [])
  | .ok msg =>
      ({ bus with messages := mapSet bus.messages msg.id msg,
                  nextUuid := bus.nextUuid + 2 },
       [msg])

/-- `MessageManager.getActiveChannels` (part_003 lines 195–205): the
distinct channel ids of stored messages of the platform, in first-seen
order. -/
def getActiveChannelsAux (platform : String) :
    List Message → List (Option JVal) → List (Option JVal)
  | [], acc => acc
  | m :: ms, acc =>
      if m.platform = platform && !(acc.contains m.channelId) then
        getActiveChannelsAux platform ms (acc ++ [m.channelId])
      else
        getActiveChannelsAux platform ms acc

def getActiveChannels (bus : Bus) (platform : String) : List (Option JVal) :=
  getActiveChannelsAux platform (storedMessages bus) []

/-- One entry of the list `sendCrossChannelMessage` returns: either
`{platform, channelId, result}` on success or `{platform, error}` where
`error` is the caught exception's message. -/
inductive CCEntry where
  | success : String → Option JVal → SendResult → CCEntry
  | failure : String → String → CCEntry
deriving DecidableEq, Repr

/-- The inner `for (const channelId of channels)` loop of
`sendCrossChannelMessage` (part_003 lines 182–185): sends sequentially,
collecting success entries, and stops at the first throw, surfacing it to
the enclosing try/catch. -/
def sendToChannels (bus : Bus) (platform : String) (content : String) :
    List (Option JVal) → Bus × List CCEntry × Option JSErr
  | [] => (bus, [], none)
  | c :: cs =>
      match sendMessage bus platform c content with
      | (bus1, .error e, _) => (bus1, [], some e)
      | (bus1, .ok r, _) =>
          match sendToChannels bus1 platform content cs with
          | (bus2, entries, err) =>
              (bus2, .success platform c r :: entries, err)

/-- One iteration of the platform loop of `sendCrossChannelMessage`
(part_003 lines 178–190): resolve the channel list (`options.channels`,
else the platform's active channels), send to each, and catch any throw
of the whole block as a single `{platform, error}` entry. -/
def sendPlatform (bus : Bus) (platform : String) (content : String)
    (optChannels : Option (List (Option JVal))) : Bus × List CCEntry :=
  let channels := match optChannels with
    | some cs => cs
    | none => getActiveChannels bus platform
  match sendToChannels bus platform content channels with
  | (bus1, entries, none) => (bus1, entries)
  | (bus1, entries, some e) => (bus1, entries ++ [.failure platform e.message])

/-- `MessageManager.sendCrossChannelMessage` (part_003 lines 175–193):
iterates the registered integrations in insertion order; each platform's
block is guarded by its own try/catch, so the call as a whole always
returns the accumulated entry list. -/
def sendCrossChannelMessage (bus : Bus) (content : String)
    (optChannels : Option (List (Option JVal))) : Bus × List CCEntry :=
  bus.integrations.foldl
    (fun acc pi =>
      match sendPlatform acc.1 pi.1 content optChannels with
      | (b, es) => (b, acc.2 ++ es))
    (bus, [])

/-- The filter object accepted by `getMessages` (part_003 lines 207–238).
`platform` and `author` are matched by truthiness-guarded equality;
`since` carries an ISO timestamp (always a nonempty, hence truthy, string
when present — modelled as presence of a `Nat`); `limit` is a count whose
JS truthiness makes `0` equivalent to absent. -/
structure Filters where
  platform : Option String := none
  channelId : Option JVal := none
  author : Option JVal := none
  since : Option Nat := none
  limit : Option Nat := none

/-- `messages.slice(-n)` for `n > 0`: the last `n` elements. -/
def sliceLast (n : Nat) (l : List Message) : List Message :=
  l.drop (l.length - n)

/-- One insertion step of the final
`sort((a, b) => isBefore(a, b) ? -1 : 1)`.  The comparator orders by
timestamp and reports `1` on ties, so the result is ascending by
timestamp with implementation-defined tie order; the embedding models it
as an insertion sort placing equal timestamps after existing ones. -/
def insertByTs (m : Message) : List Message → List Message
  | [] => [m]
  | x :: xs => if m.timestamp < x.timestamp then m :: x :: xs
               else x :: insertByTs m xs

def sortByTs : List Message → List Message
  | [] => []
  | m :: ms => insertByTs m (sortByTs ms)

/-- `MessageManager.getMessages` (part_003 lines 207–238): successive
truthiness-guarded filters over the stored messages, then `slice(-limit)`,
then the timestamp sort. -/
def getMessages (bus : Bus) (f : Filters) : List Message :=
  let ms := storedMessages bus
  let ms := match f.platform with
    | some p => if p ≠ "" then ms.filter (fun m => m.platform = p) else ms
    | none => ms
  let ms := match f.channelId with
    | some c => if c.truthy then ms.filter (fun m => m.channelId = some c) else ms
    | none => ms
  let ms := match f.author with
    | some a =>
        if a.truthy then
          ms.filter (fun m =>
            (match a with
             | .str s => m.author.username = some s
             | _ => false) || m.author.id = some a)
        else ms
    | none => ms
  let ms := match f.since with
    | some t => ms.filter (fun m => t < m.timestamp)
    | none => ms
  let ms := match f.limit with
    | some n => if n ≠ 0 then sliceLast n ms else ms
    | none => ms
  sortByTs ms

/-- A bus operation of a run: the calls that create or affect state in
the claims' scope.  An inbound platform event reaches the bus as
`handleIncomingMessage` via the subscription `registerIntegration`
installs; an AI-triggered reply is itself a later `sendMessage` call, so
every run of the real system is a `List BusOp`. -/
inductive BusOp where
  | incoming : String → RawMessage → BusOp
  | send : String → Option JVal → String → BusOp
  | crossSend : String → Option (List (Option JVal)) → BusOp
  | regIntegration : String → Adapter → BusOp
  | regAIAgent : JVal → Agent → BusOp
  | tick : BusOp

/-- Apply one operation to the bus, dropping returned values and events.
`tick` advances the model clock (time passing between calls). -/
def runOp (bus : Bus) : BusOp → Bus
  | .incoming platform raw => (handleIncomingMessage bus platform raw).1
  | .send platform c content => (sendMessage bus platform c content).1
  | .crossSend content cs => (sendCrossChannelMessage bus content cs).1
  | .regIntegration platform a => registerIntegration bus platform a
  | .regAIAgent id a => registerAIAgent bus id a
  | .tick => { bus with now := bus.now + 1 }

/-- Run a sequence of operations from a starting state. -/
def run (bus : Bus) : List BusOp → Bus
  | [] => bus
  | op :: ops => run (runOp bus op) ops

/-- The `BaseIntegration` reconnection state
(src/src/core/BaseIntegration.js lines 5–13). -/
structure IntegrationState where
  reconnectAttempts : Nat
  maxReconnectAttempts : Nat
  reconnectDelay : Nat
deriving DecidableEq, Repr

/-- A fresh `BaseIntegration`: defaults 0 / 5 / 1000 ms. -/
def initIntegration : IntegrationState :=
  { reconnectAttempts := 0, maxReconnectAttempts := 5, reconnectDelay := 1000 }

/-- An observable event of the reconnection procedure: a connection
attempt (its ordinal and the backoff delay that preceded it), a terminal
error, or a successful reconnection. -/
inductive ReconnectEvent where
  | attempt : Nat → Nat → ReconnectEvent
  | terminalError : ReconnectEvent
  | reconnected : ReconnectEvent
deriving DecidableEq, Repr

/-- `BaseIntegration.handleReconnect` (BaseIntegration.js lines 35–55),
unfolded into the event trace of the whole procedure.  `connectOk n`
tells whether the n-th reconnection attempt's `connect()` resolves.  The
guard emits the terminal error once `reconnectAttempts` reaches the
maximum; otherwise the counter is incremented first, so the scheduled
delay is `reconnectDelay * (new attempt count)` — linear backoff.  On a
successful `connect()` the counter resets and the procedure ends; on
failure `handleReconnect` recurses. -/
def reconnectTrace (connectOk : Nat → Bool) (s : IntegrationState) :
    List ReconnectEvent :=
  if h : s.maxReconnectAttempts ≤ s.reconnectAttempts then
    [.terminalError]
  else
    let n := s.reconnectAttempts + 1
    if connectOk n then
      [.attempt n (s.reconnectDelay * n), .reconnected]
    else
      .attempt n (s.reconnectDelay * n) ::
        reconnectTrace connectOk { s with reconnectAttempts := n }
termination_by s.maxReconnectAttempts - s.reconnectAttempts
decreasing_by
  simp only [not_le] at h
  omega

/-- Number of connection attempts in a reconnect trace. -/
def attemptCount : List ReconnectEvent → Nat
  | [] => 0
  | .attempt _ _ :: es => attemptCount es + 1
  | _ :: es => attemptCount es

lemma mapGet?_mapSet_self {α β : Type} [DecidableEq α]
    (m : List (α × β)) (k : α) (v : β) :
    mapGet? (mapSet m k v) k = some v := by
  induction m with
  | nil => simp [mapSet, mapGet?]
  | cons hd tl ih =>
      obtain ⟨k0, v0⟩ := hd
      by_cases h : k0 = k <;> simp [mapSet, mapGet?, h, ih]

lemma mapHas_mapSet_self {α β : Type} [DecidableEq α]
    (m : List (α × β)) (k : α) (v : β) :
    mapHas (mapSet m k v) k = true := by
  simp [mapHas, mapGet?_mapSet_self]

lemma mapGet?_eq_none_iff {α β : Type} [DecidableEq α]
    (m : List (α × β)) (k : α) :
    mapGet? m k = none ↔ k ∉ m.map Prod.fst := by
  induction m with
  | nil => simp [mapGet?]
  | cons hd tl ih =>
      obtain ⟨k0, v0⟩ := hd
      simp only [mapGet?, List.map_cons, List.mem_cons]
      by_cases h : k0 = k
      · simp [h]
      · have hk : ¬ (k = k0) := fun hh => h hh.symm
        simp [h, hk, ih]

lemma mapSet_of_not_mem {α β : Type} [DecidableEq α]
    (m : List (α × β)) (k : α) (v : β) (h : k ∉ m.map Prod.fst) :
    mapSet m k v = m ++ [(k, v)] := by
  induction m with
  | nil => simp [mapSet]
  | cons hd tl ih =>
      obtain ⟨k0, v0⟩ := hd
      simp only [List.map_cons, List.mem_cons] at h
      push_neg at h
      have hk : ¬ k0 = k := fun hh => h.1 hh.symm
      simp [mapSet, hk, ih h.2]

lemma mapGet?_of_mem_nodup {α β : Type} [DecidableEq α]
    (m : List (α × β)) (k : α) (v : β)
    (hnd : (m.map Prod.fst).Nodup) (h : (k, v) ∈ m) :
    mapGet? m k = some v := by
  induction m with
  | nil => simp at h
  | cons hd tl ih =>
      obtain ⟨k0, v0⟩ := hd
      simp only [List.map_cons, List.nodup_cons] at hnd
      rcases List.mem_cons.mp h with h1 | h1
      · injection h1 with hk hv
        subst hk; subst hv
        simp [mapGet?]
      · have hk0 : k0 ≠ k := by
          intro hkk
          exact hnd.1 (hkk ▸ (List.mem_map.mpr ⟨(k, v), h1, rfl⟩))
        simp [mapGet?, hk0, ih hnd.2 h1]

lemma startsWithL_iff (nd : List Char) : ∀ hay,
    startsWithL hay nd = true ↔ ∃ t, hay = nd ++ t := by
  induction nd with
  | nil => intro hay; simp [startsWithL]
  | cons n ns ih =>
      intro hay
      cases hay with
      | nil => simp [startsWithL]
      | cons h hs =>
          simp only [startsWithL, Bool.and_eq_true, decide_eq_true_eq, ih]
          constructor
          · rintro ⟨rfl, t, rfl⟩; exact ⟨t, rfl⟩
          · rintro ⟨t, ht⟩
            injection ht with h1 h2
            exact ⟨h1, t, h2⟩

lemma containsL_iff : ∀ hay nd,
    containsL hay nd = true ↔ ∃ s t, hay = s ++ nd ++ t := by
  intro hay
  induction hay with
  | nil =>
      intro nd
      simp only [containsL, startsWithL_iff]
      constructor
      · rintro ⟨t, ht⟩
        exact ⟨[], t, by simpa using ht⟩
      · rintro ⟨s, t, ht⟩
        rw [eq_comm] at ht
        simp only [List.append_eq_nil] at ht
        rcases ht with ⟨⟨rfl, rfl⟩, rfl⟩
        exact ⟨[], rfl⟩
  | cons h hs ih =>
      intro nd
      simp only [containsL, Bool.or_eq_true, startsWithL_iff, ih]
      constructor
      · rintro (⟨t, ht⟩ | ⟨s, t, ht⟩)
        · exact ⟨[], t, by simpa using ht⟩
        · exact ⟨h :: s, t, by simp [ht]⟩
      · rintro ⟨s, t, ht⟩
        cases s with
        | nil => exact Or.inl ⟨t, by simpa using ht⟩
        | cons s0 ss =>
            injection ht with h1 h2
            exact Or.inr ⟨ss, t, h2⟩

lemma perm_insertByTs (m : Message) (l : List Message) :
    (insertByTs m l).Perm (m :: l) := by
  induction l with
  | nil => simp [insertByTs]
  | cons x xs ih =>
      by_cases h : m.timestamp < x.timestamp
      · simp [insertByTs, h]
      · simp only [insertByTs, if_neg h]
        exact (ih.cons x).trans (List.Perm.swap m x xs)

lemma perm_sortByTs (l : List Message) : (sortByTs l).Perm l := by
  induction l with
  | nil => simp [sortByTs]
  | cons m ms ih =>
      exact (perm_insertByTs m (sortByTs ms)).trans (ih.cons m)

lemma mem_insertByTs {b m : Message} {l : List Message} :
    b ∈ insertByTs m l ↔ b = m ∨ b ∈ l := by
  rw [(perm_insertByTs m l).mem_iff]; simp

lemma sorted_insertByTs (m : Message) (l : List Message)
    (h : l.Pairwise (fun a b => a.timestamp ≤ b.timestamp)) :
    (insertByTs m l).Pairwise (fun a b => a.timestamp ≤ b.timestamp) := by
  induction l with
  | nil => simp [insertByTs]
  | cons x xs ih =>
      rcases List.pairwise_cons.mp h with ⟨hx, hxs⟩
      by_cases hlt : m.timestamp < x.timestamp
      · simp only [insertByTs, if_pos hlt]
        refine List.pairwise_cons.mpr ⟨?_, h⟩
        intro b hb
        rcases List.mem_cons.mp hb with rfl | hb
        · exact le_of_lt hlt
        · exact le_trans (le_of_lt hlt) (hx b hb)
      · simp only [insertByTs, if_neg hlt]
        refine List.pairwise_cons.mpr ⟨?_, ih hxs⟩
        intro b hb
        rcases mem_insertByTs.mp hb with rfl | hb
        · exact le_of_not_lt hlt
        · exact hx b hb

lemma sorted_sortByTs (l : List Message) :
    (sortByTs l).Pairwise (fun a b => a.timestamp ≤ b.timestamp) := by
  induction l with
  | nil => simp [sortByTs]
  | cons m ms ih => exact sorted_insertByTs m (sortByTs ms) ih

/-- An AI responder that never replies (used as a registered binding). -/
def agentNone : Agent := fun _ => none

/-- The inbound message of the spec's AI-trigger example:
content `"@ai what's the weather"` (apostrophe written `\x27`). -/
def msgAiExample : Message :=
  { id := 0, platform := "telegram", timestamp := 0, processed := false,
    reactions := [], attachments := [],
    content := "@ai what\x27s the weather", author := {},
    channelId := some (.num 1), channelName := none,
    messageId := none, type := none }

/-- The inbound message of the spec's non-trigger example: content
`"hello"` on a channel with no AI binding. -/
def msgHelloExample : Message :=
  { id := 0, platform := "telegram", timestamp := 0, processed := false,
    reactions := [], attachments := [],
    content := "hello", author := {},
    channelId := some (.num 2), channelName := none,
    messageId := none, type := none }

/-- C2: `sendMessage` on a platform with no registered adapter fails
synchronously with the "No integration found" error, without reaching any
adapter, emitting no event and leaving the whole bus state — in
particular the message store — unchanged. -/
theorem sendMessage_unknown_platform (bus : Bus) (platform : String)
    (channelId : Option JVal) (content : String)
    (h : mapGet? bus.integrations platform = none) :
    sendMessage bus platform channelId content =
      (bus, .error (.error ("No integration found for platform: " ++ platform)), []) := by
  simp [sendMessage, h]

theorem sendMessage_unknown_platform_witness :
    mapGet? initialBus.integrations "mastodon" = none ∧
    sendMessage initialBus "mastodon" (some (.str "c1")) "hi" =
      (initialBus,
       .error (.error "No integration found for platform: mastodon"), []) :=
  ⟨rfl, sendMessage_unknown_platform initialBus "mastodon" (some (.str "c1")) "hi" rfl⟩

/-- C4: the AI trigger predicate holds exactly when the content contains
the substring `"@ai"`, or starts with `"/ai"`, or the message's channel id
has an explicit AI-agent binding; in particular the content
`"@ai what's the weather"` triggers on a bus with no bindings, and
`"hello"` on a channel with no binding does not. -/
theorem shouldProcessWithAI_characterization :
    (∀ bus m, shouldProcessWithAI bus m = true ↔
      ((∃ s t, m.content.toList = s ++ "@ai".toList ++ t) ∨
       (∃ t, m.content.toList = "/ai".toList ++ t) ∨
       (∃ c, m.channelId = some c ∧ mapHas bus.aiAgents c = true)))
    ∧ shouldProcessWithAI initialBus msgAiExample = true
    ∧ shouldProcessWithAI initialBus msgHelloExample = false := by
  refine ⟨?_, by decide, by decide⟩
  intro bus m
  have hai : aiHas bus m.channelId = true ↔
      ∃ c, m.channelId = some c ∧ mapHas bus.aiAgents c = true := by
    cases h : m.channelId <;> simp [aiHas]
  simp only [shouldProcessWithAI, Bool.or_eq_true, jsIncludes, jsStartsWith,
    containsL_iff, startsWithL_iff, hai]
  exact or_assoc

/-- The Telegram native payload of the spec's normalization example:
`{text: "hi", from: {id: 1, username: "bob"}, chat: {id: 42, title: "Team"},
message_id: 99}`. -/
def telegramPayloadEx : RawMessage :=
  { text := some "hi",
    fromUser := some { id := some (.num 1), username := some "bob" },
    chat := some { id := some (.num 42), title := some "Team" },
    message_id := some (.num 99) }

/-- C5: normalizing the example Telegram payload yields a canonical
message with `content="hi"`, `author.id=1`, `author.username="bob"`,
`channelId=42`, `channelName="Team"`, native `messageId=99` and message
type `"text"`, whatever the generated id and observation time are. -/
theorem normalizeMessage_telegram_example (fresh now : Nat) :
    normalizeMessage "telegram" telegramPayloadEx fresh now =
      .ok { id := fresh, platform := "telegram", timestamp := now,
            processed := false, reactions := [], attachments := [],
            content := "hi",
            author := { id := some (.num 1), username := some "bob",
                        firstName := none, lastName := none,
                        discriminator := none },
            channelId := some (.num 42), channelName := some "Team",
            messageId := some (.num 99), type := some (.str "text") } := by
  rfl

/-- C6: `getMessages({since: T})` returns, up to the final timestamp sort,
exactly the stored messages whose timestamp is strictly greater than `T`;
every returned message satisfies `T < timestamp`, so a message whose
timestamp equals `T` is excluded. -/
theorem getMessages_since_spec (bus : Bus) (T : Nat) :
    (getMessages bus { since := some T }).Perm
      ((storedMessages bus).filter (fun m => decide (T < m.timestamp)))
    ∧ ∀ m ∈ getMessages bus { since := some T }, T < m.timestamp := by
  have hperm : (getMessages bus { since := some T }).Perm
      ((storedMessages bus).filter (fun m => decide (T < m.timestamp))) := by
    simp only [getMessages]
    exact perm_sortByTs _
  refine ⟨hperm, ?_⟩
  intro m hm
  have h := hperm.mem_iff.mp hm
  simpa using List.of_mem_filter h

/-- Two stored inbound messages, inserted into the store out of timestamp
order to exercise the final sort. -/
def msgT1 : Message :=
  { id := 0, platform := "telegram", timestamp := 1, processed := false,
    reactions := [], attachments := [], content := "a", author := {},
    channelId := some (.num 1), channelName := none,
    messageId := none, type := none }

def msgT2 : Message :=
  { id := 1, platform := "slack", timestamp := 2, processed := false,
    reactions := [], attachments := [], content := "b", author := {},
    channelId := some (.str "C1"), channelName := none,
    messageId := none, type := none }

def busTwo : Bus :=
  { messages := [(1, msgT2), (0, msgT1)], integrations := [],
    aiAgents := [], nextUuid := 2, now := 3 }

theorem getMessages_since_spec_witness :
    ((getMessages busTwo { since := some 1 }).Perm
      ((storedMessages busTwo).filter (fun m => decide (1 < m.timestamp)))
    ∧ msgT2 ∈ getMessages busTwo { since := some 1 })
    ∧ 1 < msgT2.timestamp :=
  ⟨⟨(getMessages_since_spec busTwo 1).1, by decide⟩,
   (getMessages_since_spec busTwo 1).2 msgT2 (by decide)⟩

/-- A message whose `platform` is the empty string — possible because
`registerIntegration` accepts any platform name and the default branch of
`normalizeMessage` tags messages with whatever name was registered. -/
def msgEmptyPlat : Message :=
  { id := 2, platform := "", timestamp := 0, processed := false,
    reactions := [], attachments := [], content := "e", author := {},
    channelId := some (.str "c0"), channelName := none,
    messageId := none, type := none }

/-- An adapter whose send always succeeds with no native message id. -/
def nullAdapter : Adapter := ⟨fun _ _ => .ok {}⟩

def busC7 : Bus :=
  { messages := [(2, msgEmptyPlat), (0, msgT1)],
    integrations := [("", nullAdapter), ("telegram", nullAdapter)],
    aiAgents := [], nextUuid := 3, now := 5 }

/-- C7 counterexample: with the empty string registered as a platform and
one of its messages stored, `getMessages({platform: ""})` returns every
stored message — the filter guard `if (filters.platform)` treats the
falsy empty string as an absent filter — so the result also contains
`msgT1`, whose platform is not `""`. -/
theorem getMessages_platform_empty_counterexample :
    getMessages busC7 { platform := some "" } = [msgEmptyPlat, msgT1]
    ∧ msgT1.platform ≠ "" := by
  constructor
  · rfl
  · decide

/-- C7 (amended): for every nonempty platform name `P`,
`getMessages({platform: P})` returns exactly the stored messages whose
platform equals `P`, sorted ascending by timestamp regardless of
insertion order. -/
theorem getMessages_platform_spec (bus : Bus) (P : String) (hP : P ≠ "") :
    (getMessages bus { platform := some P }).Perm
      ((storedMessages bus).filter (fun m => decide (m.platform = P)))
    ∧ (getMessages bus { platform := some P }).Pairwise
        (fun a b => a.timestamp ≤ b.timestamp) := by
  constructor
  · simp only [getMessages, hP, if_true, ne_eq, not_false_eq_true, if_pos]
    exact perm_sortByTs _
  · simp only [getMessages]
    exact sorted_sortByTs _

theorem getMessages_platform_spec_witness :
    ("telegram" ≠ "")
    ∧ ((getMessages busC7 { platform := some "telegram" }).Perm
        ((storedMessages busC7).filter (fun m => decide (m.platform = "telegram")))
      ∧ (getMessages busC7 { platform := some "telegram" }).Pairwise
          (fun a b => a.timestamp ≤ b.timestamp)) :=
  ⟨by decide, getMessages_platform_spec busC7 "telegram" (by decide)⟩

lemma sendMessage_fst_integrations (bus : Bus) (p : String)
    (c : Option JVal) (content : String) :
    (sendMessage bus p c content).1.integrations = bus.integrations := by
  unfold sendMessage
  cases hg : mapGet? bus.integrations p with
  | none => rfl
  | some a =>
      cases hs : a.send c content with
      | error e => simp [hs]
      | ok r =>
          cases hn : normalizeMessage p
              (syntheticRaw c content (jsOrVal r.messageId (.uuid bus.nextUuid)))
              (bus.nextUuid + 1) bus.now with
          | error e => simp [hs, hn]
          | ok msg => simp [hs, hn]

lemma normalizeMessage_synthetic_discord (c : Option JVal) (content : String)
    (mid : JVal) (f n : Nat) :
    normalizeMessage "discord" (syntheticRaw c content mid) f n
      = .error (.typeError "author") := rfl

lemma normalizeMessage_synthetic_ok (p : String) (c : Option JVal)
    (content : String) (mid : JVal) (f n : Nat) (hd : p ≠ "discord") :
    ∃ msg, normalizeMessage p (syntheticRaw c content mid) f n = .ok msg := by
  by_cases h1 : p = "telegram"
  · subst h1; exact ⟨_, rfl⟩
  · by_cases h2 : p = "slack"
    · subst h2; exact ⟨_, rfl⟩
    · unfold normalizeMessage
      rw [if_neg h1, if_neg h2, if_neg hd]
      exact ⟨_, rfl⟩

/-- The outcome one `sendMessage` call reports for a registered adapter,
as a function of that adapter alone: the adapter's own rejection is
propagated; a send whose adapter succeeds still throws on the `"discord"`
platform because the bus's synthetic telegram-shaped payload has no
`author` object for the discord branch of `normalizeMessage`; otherwise
the adapter's result is returned. -/
def sendOutcome (p : String) (a : Adapter) (c : Option JVal)
    (content : String) : Except JSErr SendResult :=
  match a.send c content with
  | .error e => .error e
  | .ok r => if p = "discord" then .error (.typeError "author") else .ok r

lemma sendMessage_result (bus : Bus) (p : String) (c : Option JVal)
    (content : String) (a : Adapter)
    (h : mapGet? bus.integrations p = some a) :
    (sendMessage bus p c content).2.1 = sendOutcome p a c content := by
  unfold sendMessage sendOutcome
  rw [h]
  cases hs : a.send c content with
  | error e => simp [hs]
  | ok r =>
      by_cases hd : p = "discord"
      · subst hd
        simp [hs, normalizeMessage_synthetic_discord]
      · obtain ⟨msg, hm⟩ := normalizeMessage_synthetic_ok p c content
          (jsOrVal r.messageId (.uuid bus.nextUuid)) (bus.nextUuid + 1) bus.now hd
        simp [hs, hm, hd]

/-- The entry list `sendCrossChannelMessage` produces for one platform
with an explicit destination list, as a function of that platform's
adapter alone: success entries until the first throwing destination,
which contributes a single `{platform, error}` entry and ends the
platform's batch. -/
def platformEntries (p : String) (a : Adapter) (content : String) :
    List (Option JVal) → List CCEntry
  | [] => []
  | c :: cs =>
      match sendOutcome p a c content with
      | .error e => [.failure p e.message]
      | .ok r => .success p c r :: platformEntries p a content cs

lemma sendToChannels_spec (p : String) (content : String) (a : Adapter) :
    ∀ (cs : List (Option JVal)) (bus : Bus),
      mapGet? bus.integrations p = some a →
      ((sendToChannels bus p content cs).2.1 ++
        (match (sendToChannels bus p content cs).2.2 with
         | none => []
         | some e => [CCEntry.failure p e.message])
        = platformEntries p a content cs)
      ∧ (sendToChannels bus p content cs).1.integrations = bus.integrations := by
  intro cs
  induction cs with
  | nil => intro bus _; simp [sendToChannels, platformEntries]
  | cons c cs ih =>
      intro bus h
      have hres := sendMessage_result bus p c content a h
      have hint := sendMessage_fst_integrations bus p c content
      rcases hx : sendMessage bus p c content with ⟨bus1, res, evs⟩
      rw [hx] at hres hint
      simp only at hres hint
      cases res with
      | error e =>
          simp only [sendToChannels, hx, platformEntries, ← hres]
          exact ⟨rfl, hint⟩
      | ok r =>
          have h1 : mapGet? bus1.integrations p = some a := by rw [hint]; exact h
          obtain ⟨ihe, ihi⟩ := ih bus1 h1
          rcases hy : sendToChannels bus1 p content cs with ⟨bus2, entries, err⟩
          rw [hy] at ihe ihi
          simp only at ihe ihi
          constructor
          · simp only [sendToChannels, hx, hy, platformEntries, ← hres]
            simpa using ihe
          · simp only [sendToChannels, hx, hy]
            rw [ihi, hint]

lemma sendPlatform_spec (bus : Bus) (p : String) (content : String)
    (cs : List (Option JVal)) (a : Adapter)
    (h : mapGet? bus.integrations p = some a) :
    (sendPlatform bus p content (some cs)).2 = platformEntries p a content cs
    ∧ (sendPlatform bus p content (some cs)).1.integrations = bus.integrations := by
  obtain ⟨he, hi⟩ := sendToChannels_spec p content a cs bus h
  rcases hx : sendToChannels bus p content cs with ⟨bus1, entries, err⟩
  rw [hx] at he hi
  simp only at he hi
  cases err with
  | none =>
      simp only [sendPlatform, hx]
      constructor
      · simpa using he
      · exact hi
  | some e =>
      simp only [sendPlatform, hx]
      exact ⟨he, hi⟩

lemma ccFoldl_spec (content : String) (cs : List (Option JVal)) :
    ∀ (L : List (String × Adapter)) (b : Bus) (acc : List CCEntry),
      (∀ pa ∈ L, mapGet? b.integrations pa.1 = some pa.2) →
      (L.foldl (fun acc2 pi =>
          match sendPlatform acc2.1 pi.1 content (some cs) with
          | (b2, es) => (b2, acc2.2 ++ es)) (b, acc)).2
        = acc ++ (L.map (fun pa => platformEntries pa.1 pa.2 content cs)).join := by
  intro L
  induction L with
  | nil => intro b acc _; simp
  | cons pa L ih =>
      intro b acc hmem
      obtain ⟨p, a⟩ := pa
      have hpa : mapGet? b.integrations p = some a :=
        hmem (p, a) (List.mem_cons_self _ _)
      obtain ⟨hes, hint⟩ := sendPlatform_spec b p content cs a hpa
      rcases hsp : sendPlatform b p content (some cs) with ⟨b1, es⟩
      rw [hsp] at hes hint
      simp only at hes hint
      simp only [List.foldl_cons, hsp]
      rw [ih b1 (acc ++ es) ?_]
      · rw [hes]
        simp [List.append_assoc]
      · intro pa2 hpa2
        rw [hint]
        exact hmem pa2 (List.mem_cons_of_mem _ hpa2)

/-- C1 (amended): with an explicit destination list, the entry list
`sendCrossChannelMessage` returns is the concatenation, over the
registered platforms in registration order, of each platform's entries —
a pure function of that platform's own adapter: success entries
`{platform, channelId, result}` for the destinations before the first
throw, then a single `{platform, error}` entry that ends that platform's
batch.  One platform's failure therefore never affects another
platform's entries, and the call itself always returns the list (no
exception escapes the per-platform catch), but a failing destination
does abort the remaining destinations of the same platform. -/
theorem sendCrossChannelMessage_platform_isolation (bus : Bus)
    (content : String) (cs : List (Option JVal))
    (hnd : (bus.integrations.map Prod.fst).Nodup) :
    (sendCrossChannelMessage bus content (some cs)).2
      = (bus.integrations.map
          (fun pa => platformEntries pa.1 pa.2 content cs)).join := by
  unfold sendCrossChannelMessage
  have h := ccFoldl_spec content cs bus.integrations bus []
    (fun pa hpa => mapGet?_of_mem_nodup bus.integrations pa.1 pa.2 hnd
      (by exact Prod.mk.eta ▸ hpa))
  simpa using h

/-- The adapter of the C1 counterexample: `send` throws on channel
`"c1"` and succeeds on every other channel. -/
def ccFailAdapter : Adapter :=
  ⟨fun c _ => if c = some (.str "c1") then .error (.error "boom")
              else .ok { messageId := some (.str "m2") }⟩

def busCC : Bus :=
  { messages := [], integrations := [("A", ccFailAdapter)],
    aiAgents := [], nextUuid := 0, now := 0 }

/-- C1 counterexample: platform `A`'s adapter throws on destination `c1`
but would succeed on destination `c2`; the broadcast over the explicit
destination list `[c1, c2]` returns only the single `{platform: A,
error}` entry — delivery to the remaining destination `c2` of the same
platform was aborted by the shared per-platform catch, and no entry (in
particular no success entry) is recorded for it, contradicting
per-(platform, channel) isolation. -/
theorem sendCrossChannelMessage_abort_counterexample :
    (sendCrossChannelMessage busCC "hi"
        (some [some (.str "c1"), some (.str "c2")])).2
      = [.failure "A" "boom"]
    ∧ ccFailAdapter.send (some (.str "c2")) "hi"
        = .ok { messageId := some (.str "m2") }
    ∧ CCEntry.success "A" (some (.str "c2")) { messageId := some (.str "m2") }
        ∉ (sendCrossChannelMessage busCC "hi"
            (some [some (.str "c1"), some (.str "c2")])).2 := by
  refine ⟨rfl, rfl, by decide⟩

theorem sendCrossChannelMessage_platform_isolation_witness :
    (busCC.integrations.map Prod.fst).Nodup
    ∧ (sendCrossChannelMessage busCC "hi"
        (some [some (.str "c1"), some (.str "c2")])).2
      = (busCC.integrations.map
          (fun pa => platformEntries pa.1 pa.2 "hi"
            [some (.str "c1"), some (.str "c2")])).join :=
  ⟨by decide, sendCrossChannelMessage_platform_isolation busCC "hi"
    [some (.str "c1"), some (.str "c2")] (by decide)⟩

/-- The store invariant of a reachable bus: stored uuid serials are
pairwise distinct and all below the next unused serial. -/
def busInv (bus : Bus) : Prop :=
  (bus.messages.map Prod.fst).Nodup
  ∧ ∀ k ∈ bus.messages.map Prod.fst, k < bus.nextUuid

/-- One bus evolves from another without disturbing the stored messages:
the uuid counter is monotone and, on an invariant-satisfying state, the
invariant is kept and the old message list survives as a sublist (same
entries, same order — nothing overwritten or removed). -/
def preserves (bus bus2 : Bus) : Prop :=
  bus.nextUuid ≤ bus2.nextUuid
  ∧ (busInv bus → busInv bus2 ∧ bus.messages.Sublist bus2.messages)

lemma preserves_refl (b : Bus) : preserves b b :=
  ⟨le_refl _, fun h => ⟨h, List.Sublist.refl _⟩⟩

lemma preserves_trans {a b c : Bus} (h1 : preserves a b) (h2 : preserves b c) :
    preserves a c :=
  ⟨le_trans h1.1 h2.1, fun h =>
    ⟨(h2.2 (h1.2 h).1).1, (h1.2 h).2.trans (h2.2 (h1.2 h).1).2⟩⟩

lemma normalizeMessage_id (p : String) (raw : RawMessage) (fresh now : Nat)
    (msg : Message) (h : normalizeMessage p raw fresh now = .ok msg) :
    msg.id = fresh := by
  unfold normalizeMessage at h
  split at h
  all_goals try split at h
  all_goals try split at h
  all_goals try split at h
  all_goals simp_all
  all_goals rw [← h]

lemma store_preserves (bus : Bus) (msg : Message) (n2 : Nat)
    (h1 : bus.nextUuid ≤ msg.id) (h2 : msg.id < n2) (h3 : bus.nextUuid ≤ n2) :
    preserves bus
      { bus with messages := mapSet bus.messages msg.id msg, nextUuid := n2 } := by
  refine ⟨h3, fun hinv => ?_⟩
  have hfresh : msg.id ∉ bus.messages.map Prod.fst :=
    fun hmem => absurd (hinv.2 _ hmem) (not_lt.mpr h1)
  have happ := mapSet_of_not_mem bus.messages msg.id msg hfresh
  refine ⟨⟨?_, ?_⟩, ?_⟩
  · show ((mapSet bus.messages msg.id msg).map Prod.fst).Nodup
    rw [happ, List.map_append]
    rw [List.nodup_append]
    refine ⟨hinv.1, List.nodup_singleton _, ?_⟩
    intro x hx hmem
    simp only [List.map_cons, List.map_nil, List.mem_singleton] at hmem
    exact hfresh (hmem ▸ hx)
  · intro k hk
    show k < n2
    rw [happ, List.map_append] at hk
    rcases List.mem_append.mp hk with hk | hk
    · exact lt_of_lt_of_le (hinv.2 k hk) h3
    · simp only [List.map_cons, List.map_nil, List.mem_singleton] at hk
      exact hk ▸ h2
  · show bus.messages.Sublist (mapSet bus.messages msg.id msg)
    rw [happ]
    exact List.sublist_append_left _ _


lemma sendMessage_state (bus : Bus) (p : String) (c : Option JVal)
    (content : String) :
    (sendMessage bus p c content).1 = bus
    ∨ ∃ msg r, normalizeMessage p
          (syntheticRaw c content (jsOrVal r (.uuid bus.nextUuid)))
          (bus.nextUuid + 1) bus.now = .ok msg
        ∧ (sendMessage bus p c content).1 =
            { bus with messages := mapSet bus.messages msg.id msg,
                       nextUuid := bus.nextUuid + 3 } := by
  cases hg : mapGet? bus.integrations p with
  | none => left; simp [sendMessage, hg]
  | some a =>
      cases hs : a.send c content with
      | error e => left; simp [sendMessage, hg, hs]
      | ok r =>
          cases hn : normalizeMessage p
              (syntheticRaw c content (jsOrVal r.messageId (.uuid bus.nextUuid)))
              (bus.nextUuid + 1) bus.now with
          | error e => left; simp [sendMessage, hg, hs, hn]
          | ok msg =>
              right
              exact ⟨msg, r.messageId, hn, by simp [sendMessage, hg, hs, hn]⟩

lemma handleIncomingMessage_state (bus : Bus) (p : String) (raw : RawMessage) :
    (handleIncomingMessage bus p raw).1 = bus
    ∨ ∃ msg, normalizeMessage p raw bus.nextUuid bus.now = .ok msg
        ∧ (handleIncomingMessage bus p raw).1 =
            { bus with messages := mapSet bus.messages msg.id msg,
                       nextUuid := bus.nextUuid + 2 } := by
  cases hn : normalizeMessage p raw bus.nextUuid bus.now with
  | error e => left; simp [handleIncomingMessage, hn]
  | ok msg => right; exact ⟨msg, rfl, by simp [handleIncomingMessage, hn]⟩

lemma sendMessage_preserves (bus : Bus) (p : String) (c : Option JVal)
    (content : String) :
    preserves bus (sendMessage bus p c content).1 := by
  rcases sendMessage_state bus p c content with h | ⟨msg, r, hn, h⟩
  · rw [h]; exact preserves_refl _
  · rw [h]
    have hid : msg.id = bus.nextUuid + 1 :=
      normalizeMessage_id p _ _ _ msg hn
    exact store_preserves bus msg (bus.nextUuid + 3)
      (by omega) (by omega) (by omega)

lemma handleIncomingMessage_preserves (bus : Bus) (p : String)
    (raw : RawMessage) :
    preserves bus (handleIncomingMessage bus p raw).1 := by
  rcases handleIncomingMessage_state bus p raw with h | ⟨msg, hn, h⟩
  · rw [h]; exact preserves_refl _
  · rw [h]
    have hid : msg.id = bus.nextUuid :=
      normalizeMessage_id p _ _ _ msg hn
    exact store_preserves bus msg (bus.nextUuid + 2)
      (by omega) (by omega) (by omega)

lemma sendToChannels_preserves (p : String) (content : String) :
    ∀ (cs : List (Option JVal)) (bus : Bus),
      preserves bus (sendToChannels bus p content cs).1 := by
  intro cs
  induction cs with
  | nil => intro bus; exact preserves_refl _
  | cons c cs ih =>
      intro bus
      rcases hx : sendMessage bus p c content with ⟨bus1, res, evs⟩
      have h1 : preserves bus bus1 := by
        have := sendMessage_preserves bus p c content
        rwa [hx] at this
      cases res with
      | error e =>
          have he : sendToChannels bus p content (c :: cs) = (bus1, [], some e) := by
            simp [sendToChannels, hx]
          rw [he]
          exact h1
      | ok r =>
          rcases hy : sendToChannels bus1 p content cs with ⟨bus2, entries, err⟩
          have h2 : preserves bus1 bus2 := by
            have := ih bus1
            rwa [hy] at this
          have he : sendToChannels bus p content (c :: cs)
              = (bus2, .success p c r :: entries, err) := by
            simp [sendToChannels, hx, hy]
          rw [he]
          exact preserves_trans h1 h2

lemma sendPlatform_preserves (bus : Bus) (p : String) (content : String)
    (optCh : Option (List (Option JVal))) :
    preserves bus (sendPlatform bus p content optCh).1 := by
  have key : ∀ cs : List (Option JVal), preserves bus
      ((match sendToChannels bus p content cs with
        | (bus1, entries, none) => (bus1, entries)
        | (bus1, entries, some e) =>
            (bus1, entries ++ [CCEntry.failure p e.message])).1) := by
    intro cs
    rcases hx : sendToChannels bus p content cs with ⟨bus1, entries, err⟩
    have h1 : preserves bus bus1 := by
      have := sendToChannels_preserves p content cs bus
      rwa [hx] at this
    cases err <;> exact h1
  exact key _

lemma ccFold_preserves (content : String) (optCh : Option (List (Option JVal))) :
    ∀ (L : List (String × Adapter)) (b : Bus) (acc : List CCEntry),
      preserves b ((L.foldl (fun acc2 pi =>
          match sendPlatform acc2.1 pi.1 content optCh with
          | (b2, es) => (b2, acc2.2 ++ es)) (b, acc)).1) := by
  intro L
  induction L with
  | nil => intro b acc; exact preserves_refl _
  | cons pa L ih =>
      intro b acc
      rcases hx : sendPlatform b pa.1 content optCh with ⟨b1, es⟩
      have h1 : preserves b b1 := by
        have := sendPlatform_preserves b pa.1 content optCh
        rwa [hx] at this
      simp only [List.foldl_cons, hx]
      exact preserves_trans h1 (ih b1 (acc ++ es))

lemma sendCrossChannelMessage_preserves (bus : Bus) (content : String)
    (optCh : Option (List (Option JVal))) :
    preserves bus (sendCrossChannelMessage bus content optCh).1 := by
  unfold sendCrossChannelMessage
  exact ccFold_preserves content optCh bus.integrations bus []

lemma runOp_preserves (bus : Bus) (op : BusOp) :
    preserves bus (runOp bus op) := by
  cases op with
  | incoming p raw => exact handleIncomingMessage_preserves bus p raw
  | send p c content => exact sendMessage_preserves bus p c content
  | crossSend content cs => exact sendCrossChannelMessage_preserves bus content cs
  | regIntegration p a => exact ⟨le_refl _, fun h => ⟨h, List.Sublist.refl _⟩⟩
  | regAIAgent id a => exact ⟨le_refl _, fun h => ⟨h, List.Sublist.refl _⟩⟩
  | tick => exact ⟨le_refl _, fun h => ⟨h, List.Sublist.refl _⟩⟩

lemma run_preserves : ∀ (ops : List BusOp) (bus : Bus),
    preserves bus (run bus ops) := by
  intro ops
  induction ops with
  | nil => intro bus; exact preserves_refl _
  | cons op ops ih =>
      intro bus
      exact preserves_trans (runOp_preserves bus op) (ih (runOp bus op))

lemma run_append (l2 : List BusOp) : ∀ (l1 : List BusOp) (bus : Bus),
    run bus (l1 ++ l2) = run (run bus l1) l2 := by
  intro l1
  induction l1 with
  | nil => intro bus; rfl
  | cons op l1 ih => intro bus; simp only [List.cons_append, run]; exact ih _

/-- C8: along every run of bus operations from a fresh manager, the
stored canonical messages carry pairwise distinct ids, and extending the
run never disturbs what is already stored: the message list of any
prefix survives as a sublist of every extension — entries are appended,
never overwritten, and an id is never reassigned. -/
theorem run_message_ids_unique (ops : List BusOp) :
    (((run initialBus ops).messages.map Prod.fst).Nodup)
    ∧ ∀ more : List BusOp,
        (run initialBus ops).messages.Sublist
          (run initialBus (ops ++ more)).messages := by
  have h0 : busInv initialBus := by
    constructor
    · simp [initialBus]
    · intro k hk
      simp [initialBus] at hk
  have h1 := (run_preserves ops initialBus).2 h0
  refine ⟨h1.1.1, ?_⟩
  intro more
  rw [run_append]
  exact ((run_preserves more (run initialBus ops)).2 h1.1).2

lemma reconnectTrace_stop (connectOk : Nat → Bool) (s : IntegrationState)
    (h : s.maxReconnectAttempts ≤ s.reconnectAttempts) :
    reconnectTrace connectOk s = [.terminalError] := by
  rw [reconnectTrace]
  simp [h]

lemma reconnectTrace_step (connectOk : Nat → Bool) (s : IntegrationState)
    (h : ¬ s.maxReconnectAttempts ≤ s.reconnectAttempts)
    (hok : connectOk (s.reconnectAttempts + 1) = false) :
    reconnectTrace connectOk s =
      .attempt (s.reconnectAttempts + 1)
          (s.reconnectDelay * (s.reconnectAttempts + 1)) ::
        reconnectTrace connectOk
          { s with reconnectAttempts := s.reconnectAttempts + 1 } := by
  rw [reconnectTrace]
  simp [h, hok]

lemma reconnectTrace_succeed (connectOk : Nat → Bool) (s : IntegrationState)
    (h : ¬ s.maxReconnectAttempts ≤ s.reconnectAttempts)
    (hok : connectOk (s.reconnectAttempts + 1) = true) :
    reconnectTrace connectOk s =
      [.attempt (s.reconnectAttempts + 1)
          (s.reconnectDelay * (s.reconnectAttempts + 1)), .reconnected] := by
  rw [reconnectTrace]
  simp [h, hok]

lemma attemptCount_reconnectTrace_le (connectOk : Nat → Bool) :
    ∀ (fuel : Nat) (s : IntegrationState),
      s.maxReconnectAttempts - s.reconnectAttempts ≤ fuel →
      attemptCount (reconnectTrace connectOk s)
        ≤ s.maxReconnectAttempts - s.reconnectAttempts := by
  intro fuel
  induction fuel with
  | zero =>
      intro s hs
      have hle : s.maxReconnectAttempts ≤ s.reconnectAttempts := by omega
      rw [reconnectTrace_stop connectOk s hle]
      simp [attemptCount]
  | succ fuel ih =>
      intro s hs
      by_cases hle : s.maxReconnectAttempts ≤ s.reconnectAttempts
      · rw [reconnectTrace_stop connectOk s hle]
        simp [attemptCount]
      · cases hok : connectOk (s.reconnectAttempts + 1) with
        | true =>
            rw [reconnectTrace_succeed connectOk s hle hok]
            simp only [attemptCount]
            omega
        | false =>
            rw [reconnectTrace_step connectOk s hle hok]
            have h2 := ih { s with reconnectAttempts := s.reconnectAttempts + 1 }
              (by simp only; omega)
            simp only at h2
            simp only [attemptCount]
            omega

/-- C9: for the default configuration (5 attempts maximum, base delay
1000 ms) and a `connect()` that always fails, the reconnection procedure
performs exactly attempts 1..5 with linearly increasing delays
`1000 * n`, then emits the terminal error and stops; and in general, from
any state, the number of connection attempts never exceeds
`maxReconnectAttempts - reconnectAttempts` (so never the configured
maximum). -/
theorem handleReconnect_bound :
    reconnectTrace (fun _ => false) initIntegration =
      [.attempt 1 1000, .attempt 2 2000, .attempt 3 3000,
       .attempt 4 4000, .attempt 5 5000, .terminalError]
    ∧ ∀ (connectOk : Nat → Bool) (s : IntegrationState),
        attemptCount (reconnectTrace connectOk s)
          ≤ s.maxReconnectAttempts - s.reconnectAttempts := by
  constructor
  · rw [reconnectTrace_step, reconnectTrace_step, reconnectTrace_step,
      reconnectTrace_step, reconnectTrace_step, reconnectTrace_stop]
      <;> norm_num [initIntegration]
  · intro connectOk s
    exact attemptCount_reconnectTrace_le connectOk
      (s.maxReconnectAttempts - s.reconnectAttempts) s (le_refl _)

/-- C10: AI-agent bindings are keyed by the bare channel id (plus the
literal `"global"` key), not by the (platform, channelId) pair: after
`registerAIAgent(c, agent)`, every message whose `channelId` equals `c`
satisfies the trigger predicate whatever platform it arrived on; the
responder `processWithAI` selects depends only on the message's
`channelId`, and falls back to the `"global"` binding exactly when no
channel-specific binding exists. -/
theorem aiAgents_keyed_by_channelId :
    (∀ (bus : Bus) (c : JVal) (agent : Agent) (m : Message),
        m.channelId = some c →
        shouldProcessWithAI (registerAIAgent bus c agent) m = true)
    ∧ (∀ (bus : Bus) (m m2 : Message), m.channelId = m2.channelId →
        lookupAIAgent bus m = lookupAIAgent bus m2)
    ∧ (∀ (bus : Bus) (m : Message) (c : JVal), m.channelId = some c →
        mapGet? bus.aiAgents c = none →
        lookupAIAgent bus m = mapGet? bus.aiAgents (.str "global")) := by
  refine ⟨?_, ?_, ?_⟩
  · intro bus c agent m hc
    simp [shouldProcessWithAI, aiHas, hc, registerAIAgent, mapHas_mapSet_self]
  · intro bus m m2 hc
    simp [lookupAIAgent, hc]
  · intro bus m c hc hn
    simp [lookupAIAgent, hc, hn]

/-- A message with no AI keyword in its content, arriving on `slack`,
whose channel carries an AI binding after registration. -/
def msgC10 : Message :=
  { id := 9, platform := "slack", timestamp := 4, processed := false,
    reactions := [], attachments := [], content := "hello", author := {},
    channelId := some (.num 42), channelName := none,
    messageId := none, type := none }

theorem aiAgents_keyed_by_channelId_witness :
    msgC10.channelId = some (.num 42)
    ∧ shouldProcessWithAI
        (registerAIAgent initialBus (.num 42) agentNone) msgC10 = true :=
  ⟨rfl, aiAgents_keyed_by_channelId.1 initialBus (.num 42) agentNone msgC10 rfl⟩

/-- An adapter whose send always succeeds, resolving with the native
message id `"m1"`. -/
def okAdapter : Adapter := ⟨fun _ _ => .ok { messageId := some (.str "m1") }⟩

def busDiscord : Bus :=
  { messages := [], integrations := [("discord", okAdapter)],
    aiAgents := [], nextUuid := 0, now := 0 }

def busSlack : Bus :=
  { messages := [], integrations := [("slack", okAdapter)],
    aiAgents := [], nextUuid := 0, now := 0 }

def busTelegram : Bus :=
  { messages := [], integrations := [("telegram", okAdapter)],
    aiAgents := [], nextUuid := 0, now := 0 }

/-- C3 (evaluation at the failing inputs): the synthetic outbound payload
`{text, from: {id: 'bot'}, chat, message_id}` is telegram-shaped, so on a
`"discord"` platform whose adapter send succeeds, `normalizeMessage`
reads `.id` of the absent `author` and throws: the call reports the
TypeError, stores nothing and loses the adapter's result; on `"slack"`
the stored outbound message's `author.id` is `rawMessage.user`, i.e.
`undefined` — not `"bot"` — although the adapter's result is returned;
only on `"telegram"` is the message stored with author id `"bot"` as the
spec intends. -/
theorem sendMessage_outbound_author_bug :
    sendMessage busDiscord "discord" (some (.str "c")) "hi"
      = (busDiscord, .error (.typeError "author"), [])
    ∧ ((sendMessage busSlack "slack" (some (.str "c")) "hi").1.messages.map
        (fun kv => kv.2.author.id)) = [none]
    ∧ (sendMessage busSlack "slack" (some (.str "c")) "hi").2.1
        = .ok { messageId := some (.str "m1") }
    ∧ ((sendMessage busTelegram "telegram" (some (.num 5)) "hi").1.messages.map
        (fun kv => kv.2.author.id)) = [some (.str "bot")] := by
  exact ⟨rfl, rfl, rfl, rfl⟩
